import Mathlib

/-!
Verification of the RFC 4512 LDAP schema parser
(`src/rfc4512.parser.ts` + `src/_grammars/rfc4512.pegjs`).

The grammar (current revision of `rfc4512.pegjs`) is embedded as a
recursive-descent parser with PEG semantics over `List Char`:
ordered choice commits to the first successful alternative, repetition is
greedy, optional elements never fail, and a failed later element of a
sequence fails the whole sequence without retrying earlier optional
elements.  The preprocessor (`removeOpenLDAPPrefix`, `transformOpenLDAPOids`),
the strict-mode OpenLDAP-OID pre-check and the post-parse semantic validator
of `RFC4512Parser.parseSchema` are embedded as executable functions.

Strings are modelled over their character lists.  JavaScript whitespace is
restricted to the ASCII whitespace characters, which covers every schema
input in scope.
-/

/-- The character set of the JavaScript `\s` class and of `String.trim`,
restricted to ASCII (the inputs in scope are ASCII). -/
def isJsSpace (c : Char) : Bool :=
  c = ' ' || c = '\t' || c = '\n' || c = '\r' || c = '\x0b' || c = '\x0c'

/-- JavaScript word characters (`\w`, used by the `\b` boundary of the
OpenLDAP-OID regex): `[A-Za-z0-9_]`. -/
def isJsWordChar (c : Char) : Bool := c.isAlpha || c.isDigit || c = '_'

/-- Grammar whitespace: rule `_ = [ \t\r\n]*` of `rfc4512.pegjs`. -/
def isGrammarSpace (c : Char) : Bool := c = ' ' || c = '\t' || c = '\r' || c = '\n'

/-- Characters of the grammar's `word` rule and of the validator's name
pattern tail: `[a-zA-Z0-9_-]`. -/
def isWordChar (c : Char) : Bool := c.isAlpha || c.isDigit || c = '_' || c = '-'

/-- Step 1 of `removeOpenLDAPPrefix`: `schemaDefinition.replace(/^\s*\{\d+\}\s*/, '')`.
If the input starts with optional whitespace, `\x7b`, one or more digits,
`\x7d` and optional whitespace, that leading match is removed; otherwise the
input is returned unchanged. -/
def stripOrdinalMarker (l : List Char) : List Char :=
  match l.dropWhile isJsSpace with
  | c :: rest =>
    if c = '{' then
      let ds := rest.takeWhile Char.isDigit
      if ds.isEmpty then l
      else
        match rest.drop ds.length with
        | c2 :: rest2 => if c2 = '}' then rest2.dropWhile isJsSpace else l
        | [] => l
    else l
  | [] => l

/-- JavaScript `String.prototype.trim` on character lists (ASCII whitespace). -/
def jsTrim (l : List Char) : List Char :=
  ((l.dropWhile isJsSpace).reverse.dropWhile isJsSpace).reverse

/-- Source method `RFC4512Parser.removeOpenLDAPPrefix`: strip one leading `{digits}` ordinal
marker with surrounding whitespace, then `.trim()`. -/
def removeOpenLDAPPrefix (s : String) : String :=
  String.mk (jsTrim (stripOrdinalMarker s.data))

/-- The cleaned input of `parseSchema`:
`this.removeOpenLDAPPrefix(schemaDefinition).trim()` (the extra `.trim()`
performed by `parseSchema` itself). -/
def cleanSchemaInput (s : String) : String :=
  String.mk (jsTrim (jsTrim (stripOrdinalMarker s.data)))

/-- Parser configuration (`RFC4512ParserOptions`); both flags default to
`false` in the source. -/
structure RFC4512ParserOptions where
  relaxedMode : Bool
  allowMustMayOverlap : Bool
deriving DecidableEq, Repr

/-- The defaults installed by the `RFC4512Parser` constructor. -/
def defaultOptions : RFC4512ParserOptions := ⟨false, false⟩

/-- Source method `RFC4512Parser.transformOpenLDAPOids`: in strict mode it returns the input
unchanged; in relaxed mode it replaces every OpenLDAP OID token by itself
(the source callback returns `match`), so it is the identity in both modes. -/
def transformOpenLDAPOids (_opts : RFC4512ParserOptions) (s : String) : String := s

/-- The six OpenLDAP configuration OID markers, in the order the grammar and
the regexes list them. -/
def olcfgPrefixes : List String :=
  ["OLcfgOvAt", "OLcfgDbAt", "OLcfgGlAt", "OLcfgOvOc", "OLcfgDbOc", "OLcfgGlOc"]

/-- A PEG parser over character lists: the parsed value and the remaining
input, or failure. -/
def P (α : Type) : Type := List Char → Option (α × List Char)

/-- Match a literal character sequence. -/
def pLit (kw : List Char) : P Unit := fun s =>
  if kw.isPrefixOf s then some ((), s.drop kw.length) else none

/-- One-or-more characters of a class (greedy), returned as a string:
`chars:[...]+ \x7b return chars.join("") \x7d`. -/
def pChars1 (ok : Char → Bool) : P String := fun s =>
  let run := s.takeWhile ok
  if run.isEmpty then none else some (String.mk run, s.drop run.length)

/-- Grammar whitespace `_` (always succeeds). -/
def pWs (s : List Char) : List Char := s.dropWhile isGrammarSpace

/-- PEG optional `e?`: never fails, restores the position on failure of `e`. -/
def pOpt {α : Type} (p : P α) (s : List Char) : Option α × List Char :=
  match p s with
  | some (v, s1) => (some v, s1)
  | none => (none, s)

/-- PEG ordered choice `a / b`: commits to `a` when it succeeds. -/
def pOr {α : Type} (p q : P α) : P α := fun s =>
  match p s with
  | some r => some r
  | none => q s

/-- Greedy PEG repetition `e*`, fuelled.  Every repeated expression of this
grammar consumes at least one character per iteration, so the fuel
`input length + 1` used by `pMany` never runs out before `e` fails. -/
def pManyAux {α : Type} (p : P α) : Nat → List Char → List α × List Char
  | 0, s => ([], s)
  | fuel + 1, s =>
    match p s with
    | some (v, s1) =>
      let (vs, s2) := pManyAux p fuel s1
      (v :: vs, s2)
    | none => ([], s)

/-- Greedy PEG repetition `e*`. -/
def pMany {α : Type} (p : P α) (s : List Char) : List α × List Char :=
  pManyAux p (s.length + 1) s

/-- Rule `word = chars:[a-zA-Z0-9_-]+`. -/
def pWord : P String := pChars1 isWordChar

/-- Rule `numericOid = digits:[0-9.]+`. -/
def pNumericOid : P String := pChars1 (fun c => c.isDigit || c = '.')

/-- Rule `openldapOid = prefix:("OLcfgOvAt" / ... / "OLcfgGlOc") ":" suffix:[0-9.]+`.
The six marker literals are mutually exclusive, so trying them in order and
committing is the PEG behaviour. -/
def pOlcfgOid : P String := fun s =>
  olcfgPrefixes.findSome? fun kw =>
    match pLit kw.data s with
    | none => none
    | some (_, s1) =>
      match pLit [':'] s1 with
      | none => none
      | some (_, s2) =>
        match pChars1 (fun c => c.isDigit || c = '.') s2 with
        | none => none
        | some (suf, s3) => some (kw ++ ":" ++ suf, s3)

/-- Rule `oid = openldapOid / numericOid`. -/
def pOid : P String := pOr pOlcfgOid pNumericOid

/-- Characters allowed inside quoted strings: `!("'" / "\n" / "\r") .`. -/
def isQuotedChar (c : Char) : Bool := !(c = '\'' || c = '\n' || c = '\r')

/-- Rule `quotedString = "'" chars:quotedChar* "'"`. -/
def pQuotedString : P String := fun s =>
  match s with
  | '\'' :: rest =>
    let run := rest.takeWhile isQuotedChar
    match rest.drop run.length with
    | '\'' :: rest2 => some (String.mk run, rest2)
    | _ => none
  | _ => none

/-- Rule `multiQuotedStrings = "(" _ head:quotedString tail:(_ quotedString)* _ ")"`. -/
def pMultiQuoted : P (List String) := fun s =>
  match pLit ['('] s with
  | none => none
  | some (_, s1) =>
    match pQuotedString (pWs s1) with
    | none => none
    | some (head, s2) =>
      let (tail, s3) := pMany (fun t => pQuotedString (pWs t)) s2
      match pLit [')'] (pWs s3) with
      | none => none
      | some (_, s4) => some (head :: tail, s4)

/-- Rule `name = _ "NAME" _ val:(quotedString / multiQuotedStrings)`, which
exposes only the first of multiple names (`Array.isArray(val) ? val[0] : val`;
`multiQuotedStrings` always yields a non-empty list, so `headD` is its head). -/
def pName : P String := fun s =>
  match pLit "NAME".data (pWs s) with
  | none => none
  | some (_, s1) =>
    let s2 := pWs s1
    match pQuotedString s2 with
    | some (v, r) => some (v, r)
    | none =>
      match pMultiQuoted s2 with
      | some (vs, r) => some (vs.headD "", r)
      | none => none

/-- Helper for rules of the shape `_ "KEYWORD" _ value`. -/
def pKeyThen {α : Type} (kw : String) (p : P α) : P α := fun s =>
  match pLit kw.data (pWs s) with
  | none => none
  | some (_, s1) => p (pWs s1)

/-- Rule `desc = _ "DESC" _ str:quotedString`. -/
def pDesc : P String := pKeyThen "DESC" pQuotedString

/-- Rule `wordList = head:word tail:(_ "$" _ word)*`. -/
def pWordList : P (List String) := fun s =>
  match pWord s with
  | none => none
  | some (h, s1) =>
    let (tail, s2) := pMany (fun t =>
      match pLit ['$'] (pWs t) with
      | none => none
      | some (_, t1) => pWord (pWs t1)) s1
    some (h :: tail, s2)

/-- Rule `attrList = "(" _ items:wordList _ ")" / wordList`. -/
def pAttrList : P (List String) :=
  pOr
    (fun s =>
      match pLit ['('] s with
      | none => none
      | some (_, s1) =>
        match pWordList (pWs s1) with
        | none => none
        | some (items, s2) =>
          match pLit [')'] (pWs s2) with
          | none => none
          | some (_, s3) => some (items, s3))
    pWordList

/-- Rule `supValue = "(" _ items:wordList _ ")" / word` — a bare word is
wrapped into a one-element list (`return [word]`). -/
def pSupValue : P (List String) :=
  pOr
    (fun s =>
      match pLit ['('] s with
      | none => none
      | some (_, s1) =>
        match pWordList (pWs s1) with
        | none => none
        | some (items, s2) =>
          match pLit [')'] (pWs s2) with
          | none => none
          | some (_, s3) => some (items, s3))
    (fun s =>
      match pWord s with
      | none => none
      | some (w, s1) => some ([w], s1))

/-- Rule `kind = _ val:("STRUCTURAL" / "AUXILIARY" / "ABSTRACT")`. -/
def pKindLit : P String := fun s =>
  ["STRUCTURAL", "AUXILIARY", "ABSTRACT"].findSome? fun kw =>
    match pLit kw.data (pWs s) with
    | none => none
    | some (_, s1) => some (kw, s1)

/-- An object-class element of the any-order rule `objectClassElement`. -/
inductive OCElem
  | descE (v : String)
  | supE (v : List String)
  | kindE (v : String)
  | mustE (v : List String)
  | mayE (v : List String)
deriving DecidableEq, Repr

/-- Rule `objectClassElement = objectClassDesc / sup / kind / must / may`
(ordered choice). -/
def pOCElem : P OCElem := fun s =>
  match pDesc s with
  | some (v, r) => some (.descE v, r)
  | none =>
    match pKeyThen "SUP" pSupValue s with
    | some (v, r) => some (.supE v, r)
    | none =>
      match pKindLit s with
      | some (v, r) => some (.kindE v, r)
      | none =>
        match pKeyThen "MUST" pAttrList s with
        | some (v, r) => some (.mustE v, r)
        | none =>
          match pKeyThen "MAY" pAttrList s with
          | some (v, r) => some (.mayE v, r)
          | none => none

/-- Rule `extensionKey = "X-" chars:[A-Z0-9-]+`. -/
def pExtensionKey : P String := fun s =>
  match pLit ['X', '-'] s with
  | none => none
  | some (_, s1) =>
    match pChars1 (fun c => c.isUpper || c.isDigit || c = '-') s1 with
    | none => none
    | some (run, s2) => some ("X-" ++ run, s2)

/-- Rule `extension = _ key:extensionKey _ value:(quotedString / word)`. -/
def pExtension : P (String × String) := fun s =>
  match pExtensionKey (pWs s) with
  | none => none
  | some (k, s1) =>
    match pOr pQuotedString pWord (pWs s1) with
    | none => none
    | some (v, s2) => some ((k, v), s2)

/-- Insert a key/value pair as JavaScript object assignment does: overwrite
the value in place if the key exists, otherwise append. -/
def upsert (l : List (String × String)) (k v : String) : List (String × String) :=
  match l with
  | [] => [(k, v)]
  | (k0, v0) :: rest => if k0 = k then (k0, v) :: rest else (k0, v0) :: upsert rest k v

/-- JavaScript `Object.fromEntries`: first-occurrence key order, last value wins. -/
def fromEntries (l : List (String × String)) : List (String × String) :=
  l.foldl (fun acc kv => upsert acc kv.1 kv.2) []

/-- The grammar action `extensions.length > 0 ? Object.fromEntries(extensions) : undefined`. -/
def extensionsObj (l : List (String × String)) : Option (List (String × String)) :=
  if l.isEmpty then none else some (fromEntries l)

/-- The value of a `SYNTAX` field: OID plus optional brace-enclosed length. -/
structure SyntaxValue where
  oid : String
  length : Option Nat
deriving DecidableEq, Repr

/-- JavaScript `parseInt` on a non-empty digit run. -/
def digitsToNat (ds : List Char) : Nat :=
  ds.foldl (fun n c => 10 * n + (c.toNat - '0'.toNat)) 0

/-- Rule `openldapSyntaxName = "OMsDirectoryString" / "OMsInteger" /
"OMsOctetString" / "OMsBoolean" / [a-zA-Z][a-zA-Z0-9_-]*`. -/
def pOmsName : P String := fun s =>
  match
    ["OMsDirectoryString", "OMsInteger", "OMsOctetString", "OMsBoolean"].findSome? fun kw =>
      match pLit kw.data s with
      | none => none
      | some (_, r) => some (kw, r)
  with
  | some r => some r
  | none =>
    match s with
    | c :: rest =>
      if c.isAlpha then
        let run := rest.takeWhile isWordChar
        some (String.mk (c :: run), rest.drop run.length)
      else none
    | [] => none

/-- Rule `syntaxValue = oid:(oid / openldapSyntaxName) length:("\x7b" [0-9]+ "\x7d")?`. -/
def pSyntaxValue : P SyntaxValue := fun s =>
  match pOr pOid pOmsName s with
  | none => none
  | some (o, s1) =>
    match s1 with
    | '{' :: rest =>
      let ds := rest.takeWhile Char.isDigit
      if ds.isEmpty then some (⟨o, none⟩, s1)
      else
        match rest.drop ds.length with
        | '}' :: rest2 => some (⟨o, some (digitsToNat ds)⟩, rest2)
        | _ => some (⟨o, none⟩, s1)
    | _ => some (⟨o, none⟩, s1)

/-- Rules `singleValue` / `collective` / `noUserModification`:
`_ "KEYWORD" \x7b return true \x7d`. -/
def pFlagLit (kw : String) : P Bool := fun s =>
  match pLit kw.data (pWs s) with
  | none => none
  | some (_, r) => some (true, r)

/-- Rule `usage = _ "USAGE" _ val:("userApplications" / "directoryOperation" /
"distributedOperation" / "dSAOperation")`. -/
def pUsage : P String := fun s =>
  match pLit "USAGE".data (pWs s) with
  | none => none
  | some (_, s1) =>
    let s2 := pWs s1
    ["userApplications", "directoryOperation", "distributedOperation", "dSAOperation"].findSome?
      fun kw =>
        match pLit kw.data s2 with
        | none => none
        | some (_, r) => some (kw, r)

/-- The raw record emitted by the grammar: one of the three top-level
productions (`attributeTypeDefinition`, `objectClassDefinition`,
`ldapSyntaxDefinition`).  Field names and order follow the objects built by
the grammar actions; the `syntax` property is called `syntaxVal` here. -/
inductive RawSchema
  | objectClass (oid name : String) (desc : Option String) (sup : Option (List String))
      (objectClassType : Option String) (must : Option (List String))
      (may : Option (List String)) (extensions : Option (List (String × String)))
  | attributeType (oid name : String) (desc : Option String) (sup : Option String)
      (equality : Option String) (ordering : Option String) (substr : Option String)
      (syntaxVal : Option SyntaxValue) (singleValue : Bool) (collective : Option Bool)
      (noUserModification : Option Bool) (usage : Option String)
      (extensions : Option (List (String × String)))
  | ldapSyntax (oid : String) (desc : Option String)
      (extensions : Option (List (String × String)))
deriving DecidableEq, Repr

/-- Accumulator for the any-order object-class element fold; all fields start
as `null` in the grammar action. -/
structure OCAcc where
  desc : Option String
  sup : Option (List String)
  objectClassType : Option String
  must : Option (List String)
  may : Option (List String)
deriving DecidableEq, Repr

/-- One assignment of the `elements.forEach` fold: the last element of each
tag wins. -/
def applyOCElem (acc : OCAcc) : OCElem → OCAcc
  | .descE v => ⟨some v, acc.sup, acc.objectClassType, acc.must, acc.may⟩
  | .supE v => ⟨acc.desc, some v, acc.objectClassType, acc.must, acc.may⟩
  | .kindE v => ⟨acc.desc, acc.sup, some v, acc.must, acc.may⟩
  | .mustE v => ⟨acc.desc, acc.sup, acc.objectClassType, some v, acc.may⟩
  | .mayE v => ⟨acc.desc, acc.sup, acc.objectClassType, acc.must, some v⟩

/-- Rule `objectClassDefinition = _ "(" _ oid _ name _ objectClassElement* _
extension* _ ")" _`. -/
def pObjectClassDef : P RawSchema := fun s =>
  match pLit ['('] (pWs s) with
  | none => none
  | some (_, s1) =>
    match pOid (pWs s1) with
    | none => none
    | some (oid, s2) =>
      match pName (pWs s2) with
      | none => none
      | some (nm, s3) =>
        let r4 := pMany pOCElem (pWs s3)
        let r5 := pMany pExtension (pWs r4.2)
        match pLit [')'] (pWs r5.2) with
        | none => none
        | some (_, s6) =>
          let acc := r4.1.foldl applyOCElem ⟨none, none, none, none, none⟩
          some (.objectClass oid nm acc.desc acc.sup acc.objectClassType acc.must acc.may
            (extensionsObj r5.1), pWs s6)

/-- Rule `attributeTypeDefinition = _ "(" _ oid _ name _ desc? _ attributeSup?
_ equality? _ ordering? _ substr? _ syntax? _ singleValue? _ collective? _
noUserModification? _ usage? _ extension* _ ")" _`; `singleValue` defaults to
`false` when absent, the other two flags stay `null`. -/
def pAttributeTypeDef : P RawSchema := fun s =>
  match pLit ['('] (pWs s) with
  | none => none
  | some (_, s1) =>
    match pOid (pWs s1) with
    | none => none
    | some (oid, s2) =>
      match pName (pWs s2) with
      | none => none
      | some (nm, s3) =>
        let r4 := pOpt pDesc (pWs s3)
        let r5 := pOpt (pKeyThen "SUP" pWord) (pWs r4.2)
        let r6 := pOpt (pKeyThen "EQUALITY" pWord) (pWs r5.2)
        let r7 := pOpt (pKeyThen "ORDERING" pWord) (pWs r6.2)
        let r8 := pOpt (pKeyThen "SUBSTR" pWord) (pWs r7.2)
        let r9 := pOpt (pKeyThen "SYNTAX" pSyntaxValue) (pWs r8.2)
        let r10 := pOpt (pFlagLit "SINGLE-VALUE") (pWs r9.2)
        let r11 := pOpt (pFlagLit "COLLECTIVE") (pWs r10.2)
        let r12 := pOpt (pFlagLit "NO-USER-MODIFICATION") (pWs r11.2)
        let r13 := pOpt pUsage (pWs r12.2)
        let r14 := pMany pExtension (pWs r13.2)
        match pLit [')'] (pWs r14.2) with
        | none => none
        | some (_, s15) =>
          some (.attributeType oid nm r4.1 r5.1 r6.1 r7.1 r8.1 r9.1 (r10.1.getD false)
            r11.1 r12.1 r13.1 (extensionsObj r14.1), pWs s15)

/-- Rule `ldapSyntaxDefinition = _ "(" _ oid _ desc? _ extension* _ ")" _`. -/
def pLdapSyntaxDef : P RawSchema := fun s =>
  match pLit ['('] (pWs s) with
  | none => none
  | some (_, s1) =>
    match pOid (pWs s1) with
    | none => none
    | some (oid, s2) =>
      let r3 := pOpt pDesc (pWs s2)
      let r4 := pMany pExtension (pWs r3.2)
      match pLit [')'] (pWs r4.2) with
      | none => none
      | some (_, s5) => some (.ldapSyntax oid r3.1 (extensionsObj r4.1), pWs s5)

/-- Entry rule `start = attributeTypeDefinition / objectClassDefinition /
ldapSyntaxDefinition` (ordered choice, first success wins). -/
def pStart : P RawSchema := pOr pAttributeTypeDef (pOr pObjectClassDef pLdapSyntaxDef)

/-- The call `this._parser.parse(cleanInput)`: the generated parser requires the start
rule to consume the whole input; leftover input is a syntax failure without
retrying later alternatives. -/
def grammarParse (s : String) : Option RawSchema :=
  match pStart s.data with
  | some (v, []) => some v
  | some (_, _ :: _) => none
  | none => none

/-- The error taxonomy (`RFC4512ErrorType`). -/
inductive RFC4512ErrorType
  | SYNTAX_ERROR
  | GRAMMAR_ERROR
  | MISSING_FIELD
  | INVALID_FIELD
  | INVALID_OID
  | INVALID_NAME
  | VALIDATION_ERROR
  | EMPTY_INPUT
  | OBJECTCLASS_ERROR
  | ATTRIBUTETYPE_ERROR
  | GRAMMAR_LOAD_ERROR
  | UNKNOWN_ERROR
deriving DecidableEq, Repr

/-- The observable outcome of `parseSchema`: the parsed definition, or a
thrown `RFC4512ParserError` with its type, message, the original untrimmed
input, and whether it carries a grammar position (`position` is set exactly
when the underlying peggy failure has a `location`).  The message of a
grammar-level syntax failure is generated by peggy and is not modelled; it is
recorded as the empty string. -/
inductive Outcome
  | ok (d : RawSchema)
  | err (errorType : RFC4512ErrorType) (message : String) (input : String)
      (hasPosition : Bool)
deriving DecidableEq, Repr

/-- A validator verdict, before the original input string is attached. -/
inductive VResult
  | ok (d : RawSchema)
  | err (errorType : RFC4512ErrorType) (message : String)
deriving DecidableEq, Repr

/-- Word boundary `\b` between a last consumed character and the following
character (end of input counts as a non-word position). -/
def boundaryOk (last : Char) (next : Option Char) : Bool :=
  isJsWordChar last != (match next with
    | some c => isJsWordChar c
    | none => false)

/-- Search for a split of the `[\d.]+` run after the colon that ends at a
word boundary, as the backtracking JavaScript regex engine does; `next` is
the character following the whole run. -/
def splitSearch : List Char → Option Char → Bool
  | [], _ => false
  | [c], next => boundaryOk c next
  | c :: c2 :: rest, next => boundaryOk c (some c2) || splitSearch (c2 :: rest) next

/-- Does `OLcfg(Ov|Db|Gl)(At|Oc):[\d.]+\b` match at the head of `s`? -/
def olcfgMatchAt (s : List Char) : Bool :=
  olcfgPrefixes.any fun kw =>
    match pLit kw.data s with
    | none => false
    | some (_, s1) =>
      match s1 with
      | ':' :: s2 =>
        let run := s2.takeWhile fun c => c.isDigit || c = '.'
        !run.isEmpty && splitSearch run (s2.drop run.length).head?
      | _ => false

/-- Scan all start positions; `prev` is the character before the current
position, used for the leading `\b` (the match starts with the word
character `O`, so the boundary holds exactly when `prev` is absent or a
non-word character). -/
def hasOLcfgFrom : Option Char → List Char → Bool
  | _, [] => false
  | prev, c :: rest =>
    ((match prev with
      | none => true
      | some p => !isJsWordChar p) && olcfgMatchAt (c :: rest))
    || hasOLcfgFrom (some c) rest

/-- The test `/\b(OLcfg(?:Ov|Db|Gl)(?:At|Oc)):([\d.]+)\b/.test(s)` — the strict-mode
pre-check of `parseSchema`. -/
def hasOLcfgToken (s : String) : Bool := hasOLcfgFrom none s.data

/-- The validator's `oidPattern = /^[0-9]+(\.[0-9]+)*$/`: every dot-separated
group is non-empty and all digits. -/
def isDottedDecimal (s : String) : Bool :=
  (s.data.splitOn '.').all fun g => !g.isEmpty && g.all Char.isDigit

/-- The validator's `openldapOidPattern =
/^OLcfg(?:Ov|Db|Gl)(?:At|Oc):[0-9]+(\.[0-9]+)*$/`. -/
def isOlcfgOidFormat (s : String) : Bool :=
  olcfgPrefixes.any fun kw =>
    (kw ++ ":").data.isPrefixOf s.data
      && isDottedDecimal (String.mk (s.data.drop (kw.length + 1)))

/-- The OID acceptance used for both object classes and attribute types:
dotted decimal, or additionally the OpenLDAP configuration form in relaxed
mode. -/
def oidAcceptable (opts : RFC4512ParserOptions) (oid : String) : Bool :=
  if opts.relaxedMode then isDottedDecimal oid || isOlcfgOidFormat oid
  else isDottedDecimal oid

/-- Patterns `supPattern` / `attributeNamePattern` `= /^[a-zA-Z][a-zA-Z0-9_-]*$/`. -/
def isValidNamePattern (s : String) : Bool :=
  match s.data with
  | [] => false
  | c :: rest => c.isAlpha && rest.all isWordChar

/-- Reserved keywords rejected as object-class `SUP` values. -/
def ocReservedKeywords : List String :=
  ["STRUCTURAL", "AUXILIARY", "ABSTRACT", "MUST", "MAY", "DESC", "NAME", "OBSOLETE"]

/-- Reserved keywords rejected as attribute-type `SUP` values. -/
def atReservedKeywords : List String :=
  ["EQUALITY", "ORDERING", "SUBSTR", "SYNTAX", "SINGLE-VALUE", "COLLECTIVE",
   "NO-USER-MODIFICATION", "USAGE"]

/-- First-occurrence deduplication, as `[...new Set(xs)]` produces. -/
def dedupFirstAux (seen : List String) : List String → List String
  | [] => []
  | x :: rest =>
    if seen.contains x then dedupFirstAux seen rest
    else x :: dedupFirstAux (x :: seen) rest

/-- The expression `[...new Set(must)].filter(attr => maySet.has(attr))`: the overlapping
attributes in first-seen order. -/
def mustMayOverlap (must may : List String) : List String :=
  (dedupFirstAux [] must).filter fun a => may.contains a

/-- The first attribute of a MUST/MAY list violating the name pattern (the
source loop throws at the first offender). -/
def findBadName (attrs : List String) : Option String :=
  attrs.find? fun a => !isValidNamePattern a

def emptyInputMsg : String := "Schema definition cannot be empty"

def olcfgStrictMsg : String :=
  "OpenLDAP configuration OIDs are not supported in strict RFC 4512 mode. Use relaxedMode: true to enable support."

def missingOidMsg : String := "Missing OID in schema definition"

def missingNameMsg : String := "Missing NAME in schema definition"

def ocTypeMsg : String :=
  "ObjectClass must specify exactly one type: STRUCTURAL, AUXILIARY, or ABSTRACT"

def overlapMsg (overlap : List String) : String :=
  "Attributes cannot appear in both MUST and MAY: " ++ String.intercalate ", " overlap

def invalidOidFormats (opts : RFC4512ParserOptions) (sample : String) : String :=
  if opts.relaxedMode then
    "dotted decimal notation (e.g., " ++ sample
      ++ ") or OpenLDAP configuration format (e.g., OLcfgOvAt:18.1)"
  else "dotted decimal notation (e.g., " ++ sample ++ ")"

def invalidOidMsg (opts : RFC4512ParserOptions) (sample oid : String) : String :=
  "Invalid OID format: " ++ oid ++ ". Must follow " ++ invalidOidFormats opts sample

def ocInvalidSupValueMsg (sup : String) : String :=
  "Invalid SUP value: " ++ sup
    ++ ". SUP should reference a parent objectClass name, not a reserved keyword"

def ocInvalidSupFormatMsg (sup : String) : String :=
  "Invalid SUP format: " ++ sup ++ ". Must be a valid objectClass name"

def badAttrNameMsg (listType attr : String) : String :=
  "Invalid attribute name in " ++ listType ++ ": " ++ attr
    ++ ". Must follow RFC 4512 naming conventions"

def atInvalidSupValueMsg (sup : String) : String :=
  "Invalid SUP value: " ++ sup
    ++ ". SUP should reference a parent attributeType name, not a reserved keyword"

def atSupSyntaxMsg : String :=
  "AttributeType must have either SUP (superior type) or SYNTAX defined"

def atInvalidSyntaxMsg (syntaxOid : String) : String :=
  "Invalid SYNTAX OID format: " ++ syntaxOid
    ++ ". In strict mode, SYNTAX must use standard numeric OID format (e.g., '1.3.6.1.4.1.1466.115.121.1.15'). Use relaxedMode: true to support OpenLDAP syntax names."

/-- The `oid` property of the raw record (`!parsed.oid` is its emptiness,
every variant has the property). -/
def RawSchema.oidOf : RawSchema → String
  | .objectClass oid _ _ _ _ _ _ _ => oid
  | .attributeType oid _ _ _ _ _ _ _ _ _ _ _ _ => oid
  | .ldapSyntax oid _ _ => oid

/-- The check `!parsed.name`: object classes and attribute types have a `name`
property (falsy exactly when empty); an `ldapSyntax` record has none, so the
access yields `undefined`, which is falsy. -/
def RawSchema.nameFalsy : RawSchema → Bool
  | .objectClass _ nm _ _ _ _ _ _ => nm = ""
  | .attributeType _ nm _ _ _ _ _ _ _ _ _ _ _ => nm = ""
  | .ldapSyntax _ _ _ => true

/-- The post-parse semantic validation of `RFC4512Parser.parseSchema`
(source lines 155-377), producing the parsed record unchanged or the first
violated rule.  Notes on fidelity:

* The object-class `SUP` validation block is guarded by
  `typeof objectClass.sup === 'string'`; the grammar's `supValue` always
  yields an array, so that guard never holds and no object-class `SUP`
  validation is performed.
* The `allowMustMayOverlap` option is never consulted by the source; the
  MUST/MAY overlap check is unconditional.
* The generic unknown-field loops only inspect keys produced by the grammar
  actions, all of which are whitelisted, so they can never fire.
* `attributeType.sup &&` is satisfied exactly when `sup` is present and
  non-empty; `attributeType.syntax` (an object) is truthy exactly when
  present. -/
def validateParsed (opts : RFC4512ParserOptions) (parsed : RawSchema) : VResult :=
  if RawSchema.oidOf parsed = "" then .err .MISSING_FIELD missingOidMsg
  else if RawSchema.nameFalsy parsed then .err .MISSING_FIELD missingNameMsg
  else
    match parsed with
    | .objectClass oid _nm _ds _sup kind must may _exts =>
      if !(kind = some "STRUCTURAL" || kind = some "AUXILIARY" || kind = some "ABSTRACT") then
        .err .OBJECTCLASS_ERROR ocTypeMsg
      else if !oidAcceptable opts oid then
        .err .INVALID_OID (invalidOidMsg opts "2.5.6.6" oid)
      else
        match must, may with
        | some m, some y =>
          if !(mustMayOverlap m y).isEmpty then
            .err .VALIDATION_ERROR (overlapMsg (mustMayOverlap m y))
          else
            match findBadName m with
            | some a => .err .INVALID_NAME (badAttrNameMsg "MUST" a)
            | none =>
              match findBadName y with
              | some a => .err .INVALID_NAME (badAttrNameMsg "MAY" a)
              | none => .ok parsed
        | some m, none =>
          (match findBadName m with
           | some a => .err .INVALID_NAME (badAttrNameMsg "MUST" a)
           | none => .ok parsed)
        | none, some y =>
          (match findBadName y with
           | some a => .err .INVALID_NAME (badAttrNameMsg "MAY" a)
           | none => .ok parsed)
        | none, none => .ok parsed
    | .attributeType oid _nm _ds sup _eq _ord _sub syn _sv _coll _num _usg _exts =>
      if !oidAcceptable opts oid then
        .err .INVALID_OID (invalidOidMsg opts "2.5.4.3" oid)
      else
        match
          (match sup with
           | some s => if s ≠ "" && atReservedKeywords.contains s.toUpper then some s else none
           | none => none)
        with
        | some s => .err .INVALID_FIELD (atInvalidSupValueMsg s)
        | none =>
          if (sup = none || sup = some "") && syn = none then
            .err .ATTRIBUTETYPE_ERROR atSupSyntaxMsg
          else
            match syn with
            | some sv =>
              if !opts.relaxedMode && !isDottedDecimal sv.oid then
                .err .INVALID_FIELD (atInvalidSyntaxMsg sv.oid)
              else .ok parsed
            | none => .ok parsed
    | .ldapSyntax _ _ _ => .ok parsed

/-- Source method `RFC4512Parser.parseSchema`: preprocessing, strict-mode OpenLDAP-OID
pre-check, grammar invocation, semantic validation.  Validator errors and the
pre-checks carry no position; a grammar syntax failure carries the peggy
location. -/
def parseSchema (opts : RFC4512ParserOptions) (schemaDefinition : String) : Outcome :=
  let cleanInput := transformOpenLDAPOids opts (cleanSchemaInput schemaDefinition)
  if cleanInput = "" then .err .EMPTY_INPUT emptyInputMsg schemaDefinition false
  else if !opts.relaxedMode && hasOLcfgToken cleanInput then
    .err .SYNTAX_ERROR olcfgStrictMsg schemaDefinition false
  else
    match grammarParse cleanInput with
    | some parsed =>
      match validateParsed opts parsed with
      | .ok d => .ok d
      | .err ty msg => .err ty msg schemaDefinition false
    | none => .err .SYNTAX_ERROR "" schemaDefinition true


/-- Concrete input of claim C1 (an object class whose MUST and MAY share
`cn`), taken from the repository's compliance test. -/
def c1input : String := "( 1.2.3 NAME 'test' SUP top STRUCTURAL MUST ( cn $ sn ) MAY ( cn $ mail ) )"

/-- Concrete input of claim C2: an LDAP syntax definition. -/
def c2input : String := "( 1.3.6.1.4.1.1466.115.121.1.15 DESC 'Directory String' )"

/-- Concrete input of claim C3: the `person` object class of RFC 2256. -/
def c3input : String := "( 2.5.6.6 NAME 'person' DESC 'RFC2256: a person' SUP top STRUCTURAL MUST ( sn $ cn ) MAY ( userPassword $ telephoneNumber ) )"

/-- Concrete input of claim C4: an object class whose SUP is the reserved
keyword `DESC` (one of the repository's own compliance-test inputs). -/
def c4input : String := "( 1.2.3 NAME 'test' SUP DESC STRUCTURAL )"

/-- Concrete attribute-type input without COLLECTIVE / NO-USER-MODIFICATION /
SINGLE-VALUE keywords, for claim C5. -/
def c5input : String := "( 2.5.4.35 NAME 'userPassword' SYNTAX 1.3.6.1.4.1.1466.115.121.1.40 )"

/-- Concrete attribute-type input with a COLLECTIVE keyword, for claim C5's
witness. -/
def c5winput : String := "( 2.5.4.3 NAME 'x' SYNTAX 1.2.3 COLLECTIVE )"

/-- Concrete input of claim C6: an OpenLDAP cn=config attribute type with a
vendor OID. -/
def c6input : String := "( OLcfgOvAt:18.1 NAME 'olcMemberOfDangling' SYNTAX OMsDirectoryString SINGLE-VALUE )"

/-- A valid body that itself starts with an ordinal marker, for claim C7's
counterexample. -/
def c7body : String := "{0}( 2.5.6.6 NAME 'test' STRUCTURAL )"

/-- A valid body without an ordinal marker (spec scenario 3), for claim C7's
witness. -/
def c7wbody : String := "( 1.3.6.1.4.1.7165.2.1.80 NAME 'sambaSupportedEncryptionTypes' DESC 'x' SYNTAX 1.3.6.1.4.1.1466.115.121.1.27 )"

/-- The parse of `c7wbody`. -/
def c7wexpected : RawSchema :=
  .attributeType "1.3.6.1.4.1.7165.2.1.80" "sambaSupportedEncryptionTypes" (some "x") none
    none none none (some ⟨"1.3.6.1.4.1.1466.115.121.1.27", none⟩) false none none none none

/-- Concrete input of claim C9: an object class without a kind keyword. -/
def c9input : String := "( 2.5.6.6 NAME 'test' SUP top MUST cn )"

/-- A validator success returns the parsed record unchanged (the validator
never mutates). -/
theorem validateParsed_ok_eq (opts : RFC4512ParserOptions) (p d : RawSchema)
    (h : validateParsed opts p = .ok d) : d = p := by
  unfold validateParsed at h
  repeat' split at h
  all_goals first
    | (injection h with h1; exact h1.symm)
    | injection h

/-- An OID accepted in strict mode is accepted in relaxed mode. -/
theorem oidAcceptable_relaxed (ov ov2 : Bool) (o : String)
    (h : oidAcceptable ⟨false, ov⟩ o = true) : oidAcceptable ⟨true, ov2⟩ o = true := by
  simp only [oidAcceptable] at h ⊢
  simp at h ⊢
  exact Or.inl h

/-- A record the strict validator accepts is accepted unchanged by the
relaxed validator: the only mode-dependent checks are OID acceptance
(weaker in relaxed mode) and the strict-only SYNTAX format check. -/
theorem validateParsed_relaxed (ov ov2 : Bool) (p d : RawSchema)
    (h : validateParsed ⟨false, ov⟩ p = .ok d) :
    validateParsed ⟨true, ov2⟩ p = .ok d := by
  unfold validateParsed at h ⊢
  by_cases h1 : RawSchema.oidOf p = ""
  · rw [if_pos h1] at h; exact absurd h (by simp)
  rw [if_neg h1] at h ⊢
  by_cases h2 : RawSchema.nameFalsy p = true
  · rw [if_pos h2] at h; exact absurd h (by simp)
  rw [if_neg h2] at h ⊢
  cases p with
  | objectClass oid nm ds sup kind must may exts =>
    dsimp only at h ⊢
    by_cases h3 : (!(kind = some "STRUCTURAL" || kind = some "AUXILIARY" || kind = some "ABSTRACT") : Bool) = true
    · rw [if_pos h3] at h; exact absurd h (by simp)
    rw [if_neg h3] at h ⊢
    by_cases h4 : (!oidAcceptable ⟨false, ov⟩ oid) = true
    · rw [if_pos h4] at h; exact absurd h (by simp)
    rw [if_neg h4] at h
    have h4r : ¬(!oidAcceptable ⟨true, ov2⟩ oid) = true := by
      simp [oidAcceptable_relaxed ov ov2 oid (by simpa using h4)]
    rw [if_neg h4r]
    exact h
  | attributeType oid nm ds sup eq ord sub syn sv coll num usg exts =>
    dsimp only at h ⊢
    by_cases h4 : (!oidAcceptable ⟨false, ov⟩ oid) = true
    · rw [if_pos h4] at h; exact absurd h (by simp)
    rw [if_neg h4] at h
    have h4r : ¬(!oidAcceptable ⟨true, ov2⟩ oid) = true := by
      simp [oidAcceptable_relaxed ov ov2 oid (by simpa using h4)]
    rw [if_neg h4r]
    cases hr : (match sup with
      | some s => if s ≠ "" && atReservedKeywords.contains s.toUpper then some s else none
      | none => none) with
    | some s =>
      rw [hr] at h
      exact absurd h (by simp)
    | none =>
      rw [hr] at h
      dsimp only at h ⊢
      by_cases h5 : ((sup = none || sup = some "") && syn = none : Bool) = true
      · rw [if_pos h5] at h; exact absurd h (by simp)
      rw [if_neg h5] at h ⊢
      cases syn with
      | none => exact h
      | some sv =>
        dsimp only at h ⊢
        simp only [Bool.not_true, Bool.not_false, Bool.false_and, Bool.true_and,
          Bool.false_eq_true, if_false] at h ⊢
        by_cases h6 : (!isDottedDecimal sv.oid) = true
        · rw [if_pos h6] at h; exact absurd h (by simp)
        rw [if_neg h6] at h
        exact h
  | ldapSyntax oid ds exts =>
    exact absurd rfl h2

/-- A `takeWhile` stops exactly at the first character outside the class. -/
theorem takeWhile_all_append (p : Char → Bool) (a : List Char) (x : Char) (r : List Char)
    (ha : ∀ c ∈ a, p c = true) (hx : p x = false) :
    (a ++ x :: r).takeWhile p = a := by
  induction a with
  | nil => simp [List.takeWhile_cons, hx]
  | cons c cs ih =>
    have hc : p c = true := ha c (by simp)
    simp only [List.cons_append, List.takeWhile_cons, hc, if_true]
    rw [ih fun d hd => ha d (by simp [hd])]

/-- Prepending one `\x7bdigits\x7d` ordinal marker to a body that does not
itself start with such a marker leaves the cleaned input unchanged. -/
theorem cleanSchemaInput_ordinal (ds : List Char) (B : String)
    (h1 : ds ≠ []) (h2 : ∀ c ∈ ds, c.isDigit = true)
    (h3 : stripOrdinalMarker B.data = B.data) :
    cleanSchemaInput (String.mk ('{' :: (ds ++ ['}'])) ++ B) = cleanSchemaInput B := by
  have hdata : (String.mk ('{' :: (ds ++ ['}'])) ++ B).data = '{' :: (ds ++ '}' :: B.data) := by
    cases B with
    | mk bl => simp [String.instAppend, String.append]
  have hne : ds.isEmpty = false := by
    cases ds with
    | nil => exact absurd rfl h1
    | cons c cs => rfl
  have key : stripOrdinalMarker ('{' :: (ds ++ '}' :: B.data)) = B.data.dropWhile isJsSpace := by
    unfold stripOrdinalMarker
    have e1 : ('{' :: (ds ++ '}' :: B.data)).dropWhile isJsSpace = '{' :: (ds ++ '}' :: B.data) := by
      rw [List.dropWhile_cons, if_neg (by decide)]
    rw [e1]
    have e2 : (ds ++ '}' :: B.data).takeWhile Char.isDigit = ds :=
      takeWhile_all_append Char.isDigit ds '}' B.data h2 (by decide)
    have e3 : (ds ++ '}' :: B.data).drop ds.length = '}' :: B.data :=
      List.drop_left ds ('}' :: B.data)
    simp only [e2, e3, hne, if_true, if_false]
    simp
  unfold cleanSchemaInput
  rw [hdata, key, h3]
  have : jsTrim (B.data.dropWhile isJsSpace) = jsTrim B.data := by
    unfold jsTrim
    rw [List.dropWhile_idempotent isJsSpace B.data]
  rw [this]

/-- An optional flag rule yields `null` or `true`, never `false`. -/
theorem pOpt_flagLit_fst (kw : String) (s : List Char) :
    (pOpt (pFlagLit kw) s).1 = none ∨ (pOpt (pFlagLit kw) s).1 = some true := by
  unfold pOpt pFlagLit
  cases h : pLit kw.data (pWs s) with
  | none => simp
  | some r =>
    obtain ⟨u, rest⟩ := r
    simp

/-- The object-class production only emits `objectClass` records. -/
theorem pObjectClassDef_shape (s : List Char) (v : RawSchema) (r : List Char)
    (h : pObjectClassDef s = some (v, r)) :
    ∃ oid nm ds sup kind must may exts,
      v = RawSchema.objectClass oid nm ds sup kind must may exts := by
  simp only [pObjectClassDef] at h
  repeat' split at h
  all_goals try exact Option.noConfusion h
  rw [Option.some.injEq, Prod.mk.injEq] at h
  exact ⟨_, _, _, _, _, _, _, _, h.1.symm⟩

/-- The LDAP-syntax production only emits `ldapSyntax` records. -/
theorem pLdapSyntaxDef_shape (s : List Char) (v : RawSchema) (r : List Char)
    (h : pLdapSyntaxDef s = some (v, r)) :
    ∃ oid ds exts, v = RawSchema.ldapSyntax oid ds exts := by
  simp only [pLdapSyntaxDef] at h
  repeat' split at h
  all_goals try exact Option.noConfusion h
  rw [Option.some.injEq, Prod.mk.injEq] at h
  exact ⟨_, _, _, h.1.symm⟩

/-- In every record emitted by the attribute-type production, `collective`
and `noUserModification` are `null` or `true`, never `false`. -/
theorem pAttributeTypeDef_flags (s : List Char) (oid nm : String)
    (ds sup eqr ordr subr : Option String) (syn : Option SyntaxValue) (sv : Bool)
    (coll num : Option Bool) (usg : Option String) (exts : Option (List (String × String)))
    (r : List Char)
    (h : pAttributeTypeDef s =
      some (.attributeType oid nm ds sup eqr ordr subr syn sv coll num usg exts, r)) :
    (coll = none ∨ coll = some true) ∧ (num = none ∨ num = some true) := by
  simp only [pAttributeTypeDef] at h
  repeat' split at h
  all_goals try exact Option.noConfusion h
  rw [Option.some.injEq, Prod.mk.injEq, RawSchema.attributeType.injEq] at h
  obtain ⟨⟨e1, e2, e3, e4, e5, e6, e7, e8, e9, e10, e11, e12, e13⟩, hr⟩ := h
  refine ⟨?_, ?_⟩
  · rw [← e10]
    exact pOpt_flagLit_fst _ _
  · rw [← e11]
    exact pOpt_flagLit_fst _ _

/-- Every `attributeType` record produced by the grammar has `collective`
and `noUserModification` equal to `null` or `true`. -/
theorem grammarParse_attributeType (c : String) (oid nm : String)
    (ds sup eqr ordr subr : Option String) (syn : Option SyntaxValue) (sv : Bool)
    (coll num : Option Bool) (usg : Option String) (exts : Option (List (String × String)))
    (h : grammarParse c =
      some (.attributeType oid nm ds sup eqr ordr subr syn sv coll num usg exts)) :
    (coll = none ∨ coll = some true) ∧ (num = none ∨ num = some true) := by
  unfold grammarParse at h
  cases hp : pStart c.data with
  | none => rw [hp] at h; exact Option.noConfusion h
  | some vr =>
    obtain ⟨v, rest⟩ := vr
    rw [hp] at h
    cases rest with
    | cons c2 cs => exact Option.noConfusion h
    | nil =>
      rw [Option.some.injEq] at h
      subst h
      unfold pStart pOr at hp
      cases ha : pAttributeTypeDef c.data with
      | some r2 =>
        rw [ha] at hp
        rw [Option.some.injEq] at hp
        rw [hp] at ha
        exact pAttributeTypeDef_flags _ _ _ _ _ _ _ _ _ _ _ _ _ _ _ ha
      | none =>
        rw [ha] at hp
        cases hb : pObjectClassDef c.data with
        | some r2 =>
          rw [hb] at hp
          rw [Option.some.injEq] at hp
          obtain ⟨o1, o2, o3, o4, o5, o6, o7, o8, hsh⟩ :=
            pObjectClassDef_shape c.data r2.1 r2.2 (by rw [hb])
          rw [hp] at hsh
          simp at hsh
        | none =>
          rw [hb] at hp
          cases hc : pLdapSyntaxDef c.data with
          | some r2 =>
            rw [hc] at hp
            rw [Option.some.injEq] at hp
            obtain ⟨o1, o2, o3, hsh⟩ := pLdapSyntaxDef_shape c.data r2.1 r2.2 (by rw [hc])
            rw [hp] at hsh
            simp at hsh
          | none =>
            rw [hc] at hp
            exact Option.noConfusion hp

/-- Claim C5, corrected: every `AttributeTypeDefinition` returned by
`parseSchema` has a boolean `singleValue` (its field is of type `Bool`,
`true` exactly when `SINGLE-VALUE` was parsed and `false` otherwise), but
`collective` and `noUserModification` are `true` when the corresponding
keyword is present and `null` — not `false` — when it is absent: here,
for every successful parse, each of the two fields is `none` or
`some true`. -/
theorem claim_C5_flags_amended (opts : RFC4512ParserOptions) (input : String)
    (oid nm : String) (ds sup eqr ordr subr : Option String) (syn : Option SyntaxValue)
    (sv : Bool) (coll num : Option Bool) (usg : Option String)
    (exts : Option (List (String × String)))
    (h : parseSchema opts input =
      .ok (.attributeType oid nm ds sup eqr ordr subr syn sv coll num usg exts)) :
    (coll = none ∨ coll = some true) ∧ (num = none ∨ num = some true) := by
  simp only [parseSchema, transformOpenLDAPOids] at h
  by_cases hE : cleanSchemaInput input = ""
  · rw [if_pos hE] at h; exact Outcome.noConfusion h
  rw [if_neg hE] at h
  by_cases hO : (!opts.relaxedMode && hasOLcfgToken (cleanSchemaInput input)) = true
  · rw [if_pos hO] at h; exact Outcome.noConfusion h
  rw [if_neg hO] at h
  cases hg : grammarParse (cleanSchemaInput input) with
  | none => rw [hg] at h; exact Outcome.noConfusion h
  | some parsed =>
    rw [hg] at h
    dsimp only at h
    cases hv : validateParsed opts parsed with
    | err ty msg => rw [hv] at h; exact Outcome.noConfusion h
    | ok d2 =>
      rw [hv] at h
      rw [Outcome.ok.injEq] at h
      have hpe := validateParsed_ok_eq opts parsed d2 hv
      rw [hpe] at h
      rw [h] at hg
      exact grammarParse_attributeType _ _ _ _ _ _ _ _ _ _ _ _ _ _ hg

/-- Claim C8: for every input containing no vendor OLcfg token, if strict
`parseSchema` succeeds then relaxed `parseSchema` succeeds on the same
input with an identical result. -/
theorem claim_C8_relaxed_superset (ov : Bool) (s : String) (d : RawSchema)
    (hT : hasOLcfgToken (cleanSchemaInput s) = false)
    (h : parseSchema ⟨false, ov⟩ s = .ok d) :
    parseSchema ⟨true, ov⟩ s = .ok d := by
  simp only [parseSchema, transformOpenLDAPOids] at h ⊢
  by_cases hE : cleanSchemaInput s = ""
  · rw [if_pos hE] at h; exact absurd h (by simp)
  rw [if_neg hE] at h ⊢
  simp only [hT, Bool.not_false, Bool.not_true, Bool.true_and, Bool.false_and,
    Bool.false_eq_true, if_false] at h ⊢
  cases hg : grammarParse (cleanSchemaInput s) with
  | none => rw [hg] at h; exact absurd h (by simp)
  | some parsed =>
    rw [hg] at h
    dsimp only at h ⊢
    cases hv : validateParsed ⟨false, ov⟩ parsed with
    | err ty msg => rw [hv] at h; simp at h
    | ok d2 =>
      rw [hv] at h
      rw [validateParsed_relaxed ov ov parsed d2 hv]
      exact h

/-- Witness for C8 at the RFC 2256 `person` object class. -/
theorem claim_C8_witness :
    hasOLcfgToken (cleanSchemaInput c3input) = false ∧
    parseSchema ⟨false, false⟩ c3input = .ok (.objectClass "2.5.6.6" "person"
      (some "RFC2256: a person") (some ["top"]) (some "STRUCTURAL") (some ["sn", "cn"])
      (some ["userPassword", "telephoneNumber"]) none) ∧
    parseSchema ⟨true, false⟩ c3input = .ok (.objectClass "2.5.6.6" "person"
      (some "RFC2256: a person") (some ["top"]) (some "STRUCTURAL") (some ["sn", "cn"])
      (some ["userPassword", "telephoneNumber"]) none) :=
  ⟨rfl, rfl, claim_C8_relaxed_superset false c3input _ rfl rfl⟩

/-- Claim C6: in strict mode, any input whose cleaned form contains a
vendor OID token matching `OLcfg(Ov|Db|Gl)(At|Oc):digits` (and is
non-empty) is rejected with `SYNTAX_ERROR` before the grammar is invoked;
the error carries no position. -/
theorem claim_C6_strict_olcfg (b : Bool) (s : String)
    (h1 : hasOLcfgToken (cleanSchemaInput s) = true)
    (h2 : cleanSchemaInput s ≠ "") :
    parseSchema ⟨false, b⟩ s = .err .SYNTAX_ERROR olcfgStrictMsg s false := by
  simp only [parseSchema, transformOpenLDAPOids]
  rw [if_neg h2]
  simp [h1]


/-- Witness for C6 at the `olcMemberOfDangling` example. -/
theorem claim_C6_witness :
    hasOLcfgToken (cleanSchemaInput c6input) = true ∧
    cleanSchemaInput c6input ≠ "" ∧
    parseSchema ⟨false, false⟩ c6input = .err .SYNTAX_ERROR olcfgStrictMsg c6input false :=
  ⟨rfl, by decide, claim_C6_strict_olcfg false c6input rfl (by decide)⟩

/-- Claim C10: every input that becomes empty after stripping one leading
ordinal marker and surrounding whitespace is rejected with `EMPTY_INPUT`,
for every option configuration, before the grammar or any validation
runs. -/
theorem claim_C10_empty_input (opts : RFC4512ParserOptions) (s : String)
    (h : cleanSchemaInput s = "") :
    parseSchema opts s = .err .EMPTY_INPUT emptyInputMsg s false := by
  simp only [parseSchema, transformOpenLDAPOids]
  rw [if_pos h]

/-- Witness for C10 at the prefix-only input `" \x7b12\x7d "`. -/
theorem claim_C10_witness :
    cleanSchemaInput " {12} " = "" ∧
    parseSchema defaultOptions " {12} " = .err .EMPTY_INPUT emptyInputMsg " {12} " false :=
  ⟨rfl, claim_C10_empty_input defaultOptions " {12} " rfl⟩


/-- Claim C1 (code bug): the MUST/MAY overlap check never consults
`allowMustMayOverlap` — for both values of the option, the overlapping
input is rejected with a `VALIDATION_ERROR` naming the shared attribute
`cn`, although the option's documentation and the repository's own tests
say `allowMustMayOverlap = true` must make this parse succeed. -/
theorem claim_C1_overlap_always_rejected (allowOverlap : Bool) :
    parseSchema ⟨false, allowOverlap⟩ c1input =
      .err .VALIDATION_ERROR "Attributes cannot appear in both MUST and MAY: cn" c1input false := by
  rfl


/-- Claim C2 (code bug): the grammar parses the LDAP-syntax input into an
`ldapSyntax` record carrying its `oid` and `desc`, but `parseSchema`
then throws `MISSING_FIELD` ("Missing NAME…") because the unconditional
name check also runs for `ldapSyntax` records, which have no name —
although the repository's own tests expect this input to parse. -/
theorem claim_C2_ldapSyntax_missing_name :
    grammarParse (cleanSchemaInput c2input) =
      some (.ldapSyntax "1.3.6.1.4.1.1466.115.121.1.15" (some "Directory String") none) ∧
    parseSchema defaultOptions c2input = .err .MISSING_FIELD missingNameMsg c2input false := by
  exact ⟨rfl, rfl⟩

/-- Claim C3: parsing the RFC 2256 `person` example yields an object class
with oid `2.5.6.6`, name `person`, the given description, `sup` holding
the single bare name `top` (the grammar's `supValue` wraps it in a
one-element list), kind `STRUCTURAL`, must `[sn, cn]` and may
`[userPassword, telephoneNumber]`. -/
theorem claim_C3_person_example :
    parseSchema defaultOptions c3input =
      .ok (.objectClass "2.5.6.6" "person" (some "RFC2256: a person") (some ["top"])
        (some "STRUCTURAL") (some ["sn", "cn"]) (some ["userPassword", "telephoneNumber"])
        none) := by
  rfl


/-- Claim C4 (code bug): an object class whose `SUP` is the reserved
keyword `DESC` parses successfully — the validator's SUP checks are
guarded by `typeof sup === 'string'` while the grammar always produces an
array, so no `INVALID_FIELD` is raised, contradicting the claim and the
repository's compliance tests. -/
theorem claim_C4_reserved_sup_accepted :
    parseSchema defaultOptions c4input =
      .ok (.objectClass "1.2.3" "test" none (some ["DESC"]) (some "STRUCTURAL") none none none) ∧
    "DESC" ∈ ocReservedKeywords := by
  exact ⟨rfl, by decide⟩


/-- Claim C9: on `( 2.5.6.6 NAME 'test' SUP top MUST cn )` the
attribute-type production (tried first) fails, the object-class
production succeeds with no kind, and `parseSchema` throws
`OBJECTCLASS_ERROR` saying the object class must specify exactly one
type. -/
theorem claim_C9_missing_kind :
    pAttributeTypeDef (cleanSchemaInput c9input).data = none ∧
    pObjectClassDef (cleanSchemaInput c9input).data =
      some (.objectClass "2.5.6.6" "test" none (some ["top"]) none (some ["cn"]) none none, []) ∧
    parseSchema defaultOptions c9input =
      .err .OBJECTCLASS_ERROR ocTypeMsg c9input false := by
  exact ⟨rfl, rfl, rfl⟩


/-- Counterexample to claim C5 as stated: an attribute type without the
`COLLECTIVE` and `NO-USER-MODIFICATION` keywords parses to a record whose
`collective` and `noUserModification` are `null` (`none`), not the
boolean `false` the claim asserts. -/
theorem claim_C5_counterexample :
    parseSchema defaultOptions c5input =
      .ok (.attributeType "2.5.4.35" "userPassword" none none none none none
        (some ⟨"1.3.6.1.4.1.1466.115.121.1.40", none⟩) false none none none none) ∧
    (none : Option Bool) ≠ some false := by
  exact ⟨rfl, by decide⟩


/-- Counterexample to claim C7 as stated: the body
`\x7b0\x7d( 2.5.6.6 NAME 'test' STRUCTURAL )` is valid (its own ordinal
marker is stripped), but prepending `\x7b1\x7d` yields a syntax error,
because only one leading ordinal marker is removed. -/
theorem claim_C7_counterexample :
    parseSchema defaultOptions c7body =
      .ok (.objectClass "2.5.6.6" "test" none none (some "STRUCTURAL") none none none) ∧
    parseSchema defaultOptions ("{1}" ++ c7body) =
      .err .SYNTAX_ERROR "" ("{1}" ++ c7body) true := by
  exact ⟨rfl, rfl⟩

/-- Claim C7, corrected: for every valid body `B` that does not itself
begin with an ordinal `\x7bdigits\x7d` marker, and every non-empty digit
string `N`, `parseSchema` on `"\x7bN\x7d" ++ B` returns the same result
as on `B`. -/
theorem claim_C7_prefix_amended (opts : RFC4512ParserOptions) (ds : List Char) (B : String)
    (d : RawSchema)
    (h1 : ds ≠ []) (h2 : ∀ c ∈ ds, c.isDigit = true)
    (h3 : stripOrdinalMarker B.data = B.data)
    (h : parseSchema opts B = .ok d) :
    parseSchema opts (String.mk ('{' :: (ds ++ ['}'])) ++ B) = .ok d := by
  have hclean := cleanSchemaInput_ordinal ds B h1 h2 h3
  simp only [parseSchema, transformOpenLDAPOids] at h ⊢
  rw [hclean]
  by_cases hE : cleanSchemaInput B = ""
  · rw [if_pos hE] at h; exact Outcome.noConfusion h
  rw [if_neg hE] at h ⊢
  by_cases hO : (!opts.relaxedMode && hasOLcfgToken (cleanSchemaInput B)) = true
  · rw [if_pos hO] at h; exact Outcome.noConfusion h
  rw [if_neg hO] at h ⊢
  cases hg : grammarParse (cleanSchemaInput B) with
  | none => rw [hg] at h; exact Outcome.noConfusion h
  | some parsed =>
    rw [hg] at h
    dsimp only at h ⊢
    cases hv : validateParsed opts parsed with
    | err ty msg => rw [hv] at h; exact Outcome.noConfusion h
    | ok d2 =>
      rw [hv] at h
      exact h

/-- Witness for the corrected C7 at spec scenario 3
(`\x7b57\x7d` + sambaSupportedEncryptionTypes). -/
theorem claim_C7_prefix_amended_witness :
    (['5', '7'] : List Char) ≠ [] ∧
    (∀ c ∈ (['5', '7'] : List Char), c.isDigit = true) ∧
    stripOrdinalMarker c7wbody.data = c7wbody.data ∧
    parseSchema defaultOptions c7wbody = .ok c7wexpected ∧
    parseSchema defaultOptions (String.mk ('{' :: (['5', '7'] ++ ['}'])) ++ c7wbody) =
      .ok c7wexpected :=
  ⟨by decide, by decide, rfl, rfl,
    claim_C7_prefix_amended defaultOptions ['5', '7'] c7wbody c7wexpected (by decide)
      (by decide) rfl rfl⟩

/-- Witness for the corrected C5 at an input carrying `COLLECTIVE`. -/
theorem claim_C5_flags_amended_witness :
    parseSchema defaultOptions c5winput =
      .ok (.attributeType "2.5.4.3" "x" none none none none none (some ⟨"1.2.3", none⟩)
        false (some true) none none none) ∧
    ((some true = (none : Option Bool) ∨ some true = some true) ∧
      ((none : Option Bool) = none ∨ (none : Option Bool) = some true)) :=
  ⟨rfl, claim_C5_flags_amended defaultOptions c5winput "2.5.4.3" "x" none none none none
    none (some ⟨"1.2.3", none⟩) false (some true) none none none rfl⟩
